import Mathlib

/-!
Shallow embedding of the Position Evaluation Service of this repository:
`src/app/engine.py` (`evaluate_fen` and the `_engine` singleton),
`src/app/utils.py` (`cache_key`) and `src/app/main.py` (the `/eval`
handler `eval_fen`).

External collaborators are modelled as explicit parameters, following the
specification's scoping (the board/rules library, the engine subprocess,
`hashlib` and Redis are consumed only through their call/return
behaviour): a `Rules` record stands for the `python-chess` board
operations used by the PV rendering loop, `parse` for `chess.Board(fen)`,
`StartResult` for `chess.engine.SimpleEngine.popen_uci`, an
`AnalysisOutcome` for the guarded `engine.analyse` call, `hexdigest` for
`hashlib.sha256(s.encode()).hexdigest()`, and booleans/outcome values for
the Redis client.  Exceptions raised by a modelled call are represented
by `Option`/`Except` failure values; the embedded functions themselves
are total, mirroring the fact that the Python code catches these
exceptions on the paths under study.
-/

namespace ExplainThatMove

/-- Side colour, as in `chess.WHITE` and `chess.BLACK`. -/
inductive Color where
  | white
  | black
deriving DecidableEq

/-- Model of `chess.engine.Score`: a centipawn value (`Cp v`) or a mate
distance (`Mate m`).  The method `mate()` collapses `MateGiven` and
`Mate 0` to the integer 0, so mate distances are modelled directly by the
integer that `mate()` returns. -/
inductive EngScore where
  | cp (v : Int)
  | mate (m : Int)
deriving DecidableEq

/-- Negation of a score (`Score.__neg__`): negates the centipawn value or
the mate distance. -/
def EngScore.neg : EngScore → EngScore
  | .cp v => .cp (-v)
  | .mate m => .mate (-m)

/-- Model of `Score.is_mate()`. -/
def EngScore.is_mate : EngScore → Bool
  | .cp _ => false
  | .mate _ => true

/-- Model of `Score.mate()`: the mate distance, `none` for a centipawn
score. -/
def EngScore.mateVal : EngScore → Option Int
  | .cp _ => none
  | .mate m => some m

/-- Model of `Score.score()`: the centipawn value, `none` for a mate
score. -/
def EngScore.cpVal : EngScore → Option Int
  | .cp v => some v
  | .mate _ => none

/-- Model of `chess.engine.PovScore`: a score relative to the side
`turn`. -/
structure PovScore where
  relative : EngScore
  turn : Color
deriving DecidableEq

/-- Model of `PovScore.pov(color)`: the relative score if `turn == color`,
otherwise its negation. -/
def PovScore.pov (s : PovScore) (c : Color) : EngScore :=
  if s.turn = c then s.relative else s.relative.neg

/-- Value found under the raw `"mate"` key of the info dictionary: an
integer, or a value of some other type (engine.py line 141 checks
`isinstance(mate_val_direct, int)`). -/
inductive MateField where
  | intVal (v : Int)
  | nonInt

/-- Raw analysis info dictionary as consumed by `evaluate_fen`:
`info.get("score")`, `info.get("mate")` and `info.get("pv", [])`.  `M` is
the move type of the rules library. -/
structure AnalysisInfo (M : Type) where
  score : Option PovScore
  mateField : Option MateField
  pv : List M

/-- Interface of the board/rules library (`python-chess`) used by the PV
rendering loop: legality check, SAN rendering, applying a move, and the
raw UCI notation of a move.  `san` and `push` return `none` when the
underlying call raises an exception (caught at engine.py lines
185-189). -/
structure Rules (B M : Type) where
  is_legal : B → M → Bool
  san : B → M → Option String
  push : B → M → Option B
  uci : M → String

/-- The SAN rendering loop of `evaluate_fen` (engine.py lines 174-189):
an illegal move appends its UCI notation tagged " (illegal on replay)"
and stops the loop; an exception in `san` appends the UCI notation and
continues on the unchanged board; an exception in `push` appends the UCI
notation after the already-appended SAN and continues on the unchanged
board (the `break` in the exception handler is commented out in the
source); otherwise the SAN is appended and the move is applied. -/
def renderParts {B M : Type} (R : Rules B M) : B → List M → List String
  | _, [] => []
  | b, m :: ms =>
    if R.is_legal b m then
      match R.san b m with
      | none => R.uci m :: renderParts R b ms
      | some s =>
        match R.push b m with
        | none => s :: R.uci m :: renderParts R b ms
        | some b2 => s :: renderParts R b2 ms
    else
      [R.uci m ++ " (illegal on replay)"]

/-- The score processing of `evaluate_fen` (engine.py lines 116-153), as
a success value or the error string returned early.  `povMate v` models
the expression `chess.engine.Mate(v).pov(chess.WHITE).mate()` of line
142, with `none` standing for an exception raised while evaluating it.
The `.ok 0` case mirrors line 123: when `is_mate()` holds but `mate()`
is `None`, `score` keeps its initial value 0 and control falls through
to PV processing. -/
def scoreOf {M : Type} (povMate : Int → Option Int) (info : AnalysisInfo M) :
    Except String Int :=
  match info.score with
  | some sObj =>
    let w := sObj.pov .white
    if w.is_mate then
      match w.mateVal with
      | some m => .ok (if 0 < m then 10000 - |m| else -10000 + |m|)
      | none => .ok 0
    else
      match w.cpVal with
      | some v => .ok v
      | none => .error "ERROR:SCORE_CALCULATION"
  | none =>
    match info.mateField with
    | some (.intVal v) =>
      match povMate v with
      | some pm => .ok (if 0 < pm then 10000 - |pm| else -10000 + |pm|)
      | none => .error "ERROR:MATE_FIELD_PROCESSING"
    | some .nonInt => .error "ERROR:MATE_FIELD_INVALID_TYPE"
    | none => .error "ERROR:NO_SCORE_OR_MATE"

/-- Normalisation of one raw analysis info into the `(score_cp, pv)` pair
(engine.py lines 116-194): score processing first (an error there returns
`(0, tag)` immediately); an empty raw PV returns the computed score with
"ERROR:PV_EMPTY"; otherwise the PV is truncated to 20 plies, rendered by
`renderParts` from a fresh board `b0` parsed from the original FEN, and
joined with spaces. -/
def processInfo {B M : Type} (R : Rules B M) (povMate : Int → Option Int)
    (b0 : B) (info : AnalysisInfo M) : Int × String :=
  match scoreOf povMate info with
  | .error e => (0, e)
  | .ok score =>
    if info.pv.isEmpty then
      (score, "ERROR:PV_EMPTY")
    else
      let parts := renderParts R b0 (info.pv.take 20)
      (score,
        if parts.isEmpty then "ERROR:PV_CONVERSION_EMPTY"
        else String.intercalate " " parts)

/-- Result of `chess.engine.SimpleEngine.popen_uci`: a fresh process
handle, or a failure to start (the exception re-raised at engine.py lines
48 and 52). -/
inductive StartResult where
  | ok (h : Nat)
  | fail

/-- The memoized engine accessor `_engine` (engine.py lines 32-52), an
`lru_cache` over a zero-argument function.  The state is the cached
handle (`none` when the cache is empty or was cleared).  A cached handle
is returned as is; otherwise `popen_uci` runs: on success the new handle
is cached and returned, on failure the exception propagates (`none`). -/
def getEngine (start : StartResult) : Option Nat → Option (Nat × Option Nat)
  | some h => some (h, some h)
  | none =>
    match start with
    | .ok h => some (h, some h)
    | .fail => none

/-- Outcome of the guarded analysis call (engine.py lines 81-113): the
engine process died (`EngineTerminatedError`), some other exception was
raised, the result had an unexpected shape (neither a nonempty list nor a
dict), or a usable info dictionary was obtained. -/
inductive AnalysisOutcome (M : Type) where
  | terminated
  | failed
  | formatError
  | ok (info : AnalysisInfo M)

/-- Shallow embedding of `evaluate_fen` (engine.py lines 55-194).
`parse` models `chess.Board(fen)` (`none` = `ValueError`), `st` is the
`lru_cache` state of `_engine`, `start` the behaviour of `popen_uci` if
it runs, and `outcome` the result of the analysis call.  Returns the
`(score_cp, pv)` pair together with the new `_engine` cache state:
line 109 calls `_engine.cache_clear()` when the engine terminated
mid-call, every other path leaves the cache as the acquisition step left
it.  The function is total: every failure path produces a value rather
than propagating an exception. -/
def evaluate_fen {B M : Type} (R : Rules B M) (parse : String → Option B)
    (povMate : Int → Option Int) (start : StartResult) (st : Option Nat)
    (fen : String) (depth : Nat) (outcome : AnalysisOutcome M) :
    (Int × String) × Option Nat :=
  match parse fen with
  | none => ((0, "ERROR:INVALID_FEN"), st)
  | some b0 =>
    match getEngine start st with
    | none => ((0, "ERROR:ENGINE_UNAVAILABLE"), st)
    | some (_, st1) =>
      match outcome with
      | .terminated => ((0, "ERROR:ENGINE_TERMINATED"), none)
      | .failed => ((0, "ERROR:ANALYSIS_FAILED"), st1)
      | .formatError => ((0, "ERROR:ANALYSIS_FORMAT"), st1)
      | .ok info => (processInfo R povMate b0 info, st1)

/-- First n characters of a string, the embedding of Python slicing
`s[:n]` (Python strings are sequences of code points, as is
`String.data`). -/
def strTake (s : String) (n : Nat) : String :=
  ⟨s.data.take n⟩

/-- Shallow embedding of `cache_key` (utils.py lines 3-8).  `hexdigest`
models the composite `hashlib.sha256(s.encode()).hexdigest()`; the
f-string `f"{fen}-{depth}"` is the concatenation with the decimal
rendering of the depth, and the key is
`f"sf:{depth}:{digest}"` where `digest` is the first 32 characters of
the hex digest. -/
def cache_key (hexdigest : String → String) (fen : String) (depth : Nat) :
    String :=
  "sf:" ++ Nat.repr depth ++ ":" ++
    strTake (hexdigest (fen ++ "-" ++ Nat.repr depth)) 32

/-- Outcome of the guarded cache read in the `/eval` handler (main.py
lines 101-112): a truthy cached value that deserializes (`hit`), no
value (`miss`), or an exception from `redis.get` or `json.loads`
(`fault`), which the handler catches and logs. -/
inductive CacheReadResult (P : Type) where
  | hit (data : P)
  | miss
  | fault

/-- Outcome of the guarded cache write (main.py lines 119-123): success,
or an exception from `redis.set`, which the handler catches and logs. -/
inductive CacheWriteResult where
  | ok
  | fault

/-- Response of the `/eval` handler: an HTTP 400 for an invalid FEN, the
no-Redis payload with its `error` marker, a cache hit served with
`cached=true`, or a freshly computed payload served with
`cached=false`. -/
inductive EvalResponse (P : Type) where
  | badRequest
  | noCache (score : Int) (pv : String)
  | cachedHit (data : P)
  | fresh (score : Int) (pv : String)
deriving DecidableEq

/-- Shallow embedding of the `/eval` handler `eval_fen` (main.py lines
77-125).  `fenValid` models `chess.Board(fen)` succeeding, `redisAvail`
models `app.state.redis is not None`, `compute` is the
`(score_cp, pv)` pair produced by `evaluate_fen`, and the cache read and
write outcomes are explicit parameters.  Returns the response together
with a flag recording whether a cache write was attempted; the write
outcome never influences the response because the handler catches the
exception and returns the freshly computed payload regardless. -/
def eval_fen (P : Type) (fenValid : Bool) (redisAvail : Bool)
    (read : CacheReadResult P) (write : CacheWriteResult)
    (compute : Int × String) : EvalResponse P × Bool :=
  if fenValid then
    if redisAvail then
      match read with
      | .hit d => (.cachedHit d, false)
      | .miss => (.fresh compute.1 compute.2, true)
      | .fault => (.fresh compute.1 compute.2, true)
    else
      (.noCache compute.1 compute.2, false)
  else
    (.badRequest, false)

/-!
Concrete instantiations of the rules-library interface, used to evaluate
the embedded normaliser on explicit inputs.  They satisfy the interface
that the specification assumes of the external board library, so any
behaviour of the normaliser exhibited on them is behaviour of the code
for some admissible library response.
-/

/-- Toy rules instantiation: a position is the number of moves already
played, move k renders as "sk" with raw UCI notation "uk", and move 20
is illegal (on any board). -/
def capRules : Rules Nat Nat where
  is_legal := fun _ m => m != 20
  san := fun _ m => some ("s" ++ Nat.repr m)
  push := fun b _ => some (b + 1)
  uci := fun m => "u" ++ Nat.repr m

/-- Toy rules instantiation whose move 0 raises during SAN conversion;
every move is legal and every other move renders as "sk". -/
def faultRules : Rules Nat Nat where
  is_legal := fun _ _ => true
  san := fun _ m => if m = 0 then none else some ("s" ++ Nat.repr m)
  push := fun b _ => some (b + 1)
  uci := fun m => "u" ++ Nat.repr m

/-- Rendering of a fault-free legal sequence: all moves legal, every SAN
conversion and push succeeding, returning the SAN list and the final
board.  Used to phrase hypotheses about the clean part of a PV before an
offending move. -/
def sanSeq {B M : Type} (R : Rules B M) : B → List M → Option (List String × B)
  | b, [] => some ([], b)
  | b, m :: ms =>
    if R.is_legal b m then
      match R.san b m, R.push b m with
      | some s, some b2 =>
        match sanSeq R b2 ms with
        | some (l, bf) => some (s :: l, bf)
        | none => none
      | _, _ => none
    else none

/-- Decidable check that a character is a lowercase hexadecimal digit,
as produced by `hashlib`'s `hexdigest`. -/
def isHexDigit (c : Char) : Bool :=
  decide (('0' ≤ c ∧ c ≤ '9') ∨ ('a' ≤ c ∧ c ≤ 'f'))

/-!
Injectivity of the decimal rendering `Nat.repr` used in the visible
depth segment of the cache key, proved through a digit-reading
round-trip over the core numeral printer.
-/

/-- Numeric value of a decimal digit character. -/
def readDigit (c : Char) : Nat :=
  c.toNat - '0'.toNat

/-- Accumulator step reading one decimal digit from the left. -/
def readAcc (a : Nat) (c : Char) : Nat :=
  10 * a + readDigit c

theorem readDigit_digitChar {d : Nat} (h : d < 10) :
    readDigit (Nat.digitChar d) = d := by
  interval_cases d <;> decide

theorem foldl_readAcc_toDigitsCore :
    ∀ (fuel n : Nat) (ds : List Char), n < fuel →
      List.foldl readAcc 0 (Nat.toDigitsCore 10 fuel n ds) =
        List.foldl readAcc n ds := by
  intro fuel
  induction fuel with
  | zero => intro n ds h; omega
  | succ f ih =>
    intro n ds h
    by_cases h0 : n / 10 = 0
    · have hn : n < 10 := by omega
      simp only [Nat.toDigitsCore, h0, if_pos]
      simp [readAcc, Nat.mod_eq_of_lt hn, readDigit_digitChar hn]
    · have hpos : 0 < n := by
        rcases Nat.eq_zero_or_pos n with h' | h'
        · subst h'; simp at h0
        · exact h'
      have hlt : n / 10 < f := by
        have := Nat.div_lt_self hpos (by norm_num : 1 < 10)
        omega
      simp only [Nat.toDigitsCore, h0, if_neg, ite_false]
      rw [ih _ _ hlt]
      have hmod : readDigit (Nat.digitChar (n % 10)) = n % 10 :=
        readDigit_digitChar (Nat.mod_lt n (by norm_num))
      simp only [List.foldl_cons, readAcc, hmod]
      have hx : 10 * (n / 10) + n % 10 = n := by omega
      rw [hx]

theorem foldl_readAcc_toDigits (n : Nat) :
    List.foldl readAcc 0 (Nat.toDigits 10 n) = n := by
  have h := foldl_readAcc_toDigitsCore (n + 1) n [] (Nat.lt_succ_self n)
  simpa [Nat.toDigits] using h

theorem natRepr_inj {a b : Nat} (h : Nat.repr a = Nat.repr b) : a = b := by
  have hd : Nat.toDigits 10 a = Nat.toDigits 10 b := by
    have := congrArg String.data h
    simpa [Nat.repr, List.asString] using this
  calc a = List.foldl readAcc 0 (Nat.toDigits 10 a) :=
        (foldl_readAcc_toDigits a).symm
    _ = List.foldl readAcc 0 (Nat.toDigits 10 b) := by rw [hd]
    _ = b := foldl_readAcc_toDigits b

theorem string_data_append (a b : String) :
    (a ++ b).data = a.data ++ b.data := rfl

theorem strTake_length (s : String) (n : Nat) (h : n ≤ s.length) :
    (strTake s n).length = n := by
  simp only [String.length] at h
  show (s.data.take n).length = n
  rw [List.length_take]
  omega

/-- The score component of the normalised result equals the successfully
extracted score on every PV branch. -/
theorem processInfo_fst {B M : Type} (R : Rules B M)
    (povMate : Int → Option Int) (b0 : B) (info : AnalysisInfo M) (s : Int)
    (h : scoreOf povMate info = .ok s) :
    (processInfo R povMate b0 info).1 = s := by
  unfold processInfo
  rw [h]
  by_cases hpv : info.pv.isEmpty <;> simp [hpv]

/-- Rendering a list that opens with a fault-free legal sequence and then
hits an illegal move produces exactly the SANs of the clean part followed
by the tagged raw notation of the offending move, and nothing more. -/
theorem renderParts_sanSeq_illegal {B M : Type} (R : Rules B M) :
    ∀ (pre : List M) (b : B) (sans : List String) (bk : B) (m : M)
      (rest : List M),
      sanSeq R b pre = some (sans, bk) → R.is_legal bk m = false →
      renderParts R b (pre ++ m :: rest) =
        sans ++ [R.uci m ++ " (illegal on replay)"] := by
  intro pre
  induction pre with
  | nil =>
    intro b sans bk m rest h hil
    simp only [sanSeq, Option.some.injEq, Prod.mk.injEq] at h
    obtain ⟨h1, h2⟩ := h
    subst h1
    subst h2
    simp [renderParts, hil]
  | cons m0 pre ih =>
    intro b sans bk m rest h hil
    simp only [sanSeq] at h
    by_cases hleg : R.is_legal b m0
    · rw [if_pos hleg] at h
      cases hsan : R.san b m0 with
      | none => rw [hsan] at h; simp at h
      | some s =>
        cases hpush : R.push b m0 with
        | none => rw [hsan, hpush] at h; simp at h
        | some b2 =>
          rw [hsan, hpush] at h
          dsimp only at h
          cases hrec : sanSeq R b2 pre with
          | none => rw [hrec] at h; simp at h
          | some p =>
            obtain ⟨l, bf⟩ := p
            rw [hrec] at h
            simp only [Option.some.injEq, Prod.mk.injEq] at h
            obtain ⟨hs, hb⟩ := h
            subst hs
            subst hb
            simp only [List.cons_append, renderParts, hleg, if_pos, hsan,
              hpush, List.append_eq]
            rw [ih b2 l bf m rest hrec hil]
    · rw [if_neg hleg] at h
      simp at h

/-- Taking 20 plies of a list that has an offending move within the first
20 positions keeps the clean part, the offending move, and a tail. -/
theorem take20_split {M : Type} (pre : List M) (m : M) (rest : List M)
    (h : pre.length < 20) :
    (pre ++ m :: rest).take 20 = pre ++ m :: rest.take (19 - pre.length) := by
  rw [List.take_append_eq_append_take]
  rw [List.take_of_length_le (le_of_lt h)]
  congr 1
  have h20 : 20 - pre.length = (19 - pre.length) + 1 := by omega
  rw [h20, List.take_succ_cons]

/-- Every error string produced by the score-processing step is tagged
with the "ERROR:" marker. -/
theorem scoreOf_error_tag {M : Type} (povMate : Int → Option Int)
    (info : AnalysisInfo M) (e : String)
    (h : scoreOf povMate info = .error e) : ∃ r, e = "ERROR:" ++ r := by
  unfold scoreOf at h
  rcases hs : info.score with _ | sObj <;> rw [hs] at h
  · rcases hm : info.mateField with _ | mf <;> rw [hm] at h
    · simp only [Except.error.injEq] at h
      subst h
      exact ⟨"NO_SCORE_OR_MATE", by decide⟩
    · cases mf with
      | intVal v =>
        cases hp : povMate v with
        | none =>
          simp only [hp, Except.error.injEq] at h
          subst h
          exact ⟨"MATE_FIELD_PROCESSING", by decide⟩
        | some pm =>
          simp only [hp] at h
          exact Except.noConfusion h
      | nonInt =>
        simp only [Except.error.injEq] at h
        subst h
        exact ⟨"MATE_FIELD_INVALID_TYPE", by decide⟩
  · rcases hw : sObj.pov .white with v | m <;>
      simp only [EngScore.is_mate, EngScore.mateVal, EngScore.cpVal] at h <;>
      rw [hw] at h <;> simp at h

/-- Unfolding of `evaluate_fen` on the path where the FEN parses, an
engine handle is obtained, and the analysis yields an info dictionary. -/
theorem evaluate_fen_ok {B M : Type} (R : Rules B M)
    (parse : String → Option B) (povMate : Int → Option Int)
    (start : StartResult) (st : Option Nat) (fen : String) (depth : Nat)
    (info : AnalysisInfo M) (b : B) (h : Nat) (st1 : Option Nat)
    (hp : parse fen = some b) (he : getEngine start st = some (h, st1)) :
    evaluate_fen R parse povMate start st fen depth (.ok info) =
      (processInfo R povMate b info, st1) := by
  unfold evaluate_fen
  rw [hp, he]

/-- Score extraction on a present mate score, expressed through the
White-perspective mate value. -/
theorem scoreOf_mate {M : Type} (povMate : Int → Option Int)
    (info : AnalysisInfo M) (m : Int) (t : Color)
    (h : info.score = some ⟨.mate m, t⟩) :
    scoreOf povMate info =
      .ok (if 0 < (if t = .white then m else -m)
           then 10000 - |if t = .white then m else -m|
           else -10000 + |if t = .white then m else -m|) := by
  unfold scoreOf
  rw [h]
  cases t <;>
    simp [PovScore.pov, EngScore.neg, EngScore.is_mate, EngScore.mateVal]

/-- Score extraction on a present centipawn score, expressed through the
White-perspective value. -/
theorem scoreOf_cp {M : Type} (povMate : Int → Option Int)
    (info : AnalysisInfo M) (v : Int) (t : Color)
    (h : info.score = some ⟨.cp v, t⟩) :
    scoreOf povMate info = .ok (if t = .white then v else -v) := by
  unfold scoreOf
  rw [h]
  cases t <;>
    simp [PovScore.pov, EngScore.neg, EngScore.is_mate, EngScore.cpVal]

/-- C1: for every input, `evaluate_fen` returns a pair of a populated
integer score and a non-null string pv; on every failure path — invalid
FEN, engine unavailable, engine terminated, analysis fault (exception or
unexpected result shape), and every score-extraction failure including
the no-score case — the returned score_cp is 0 and the pv carries an
error indicator of the form "ERROR:" followed by a tag, so the result
shape is uniform across all outcomes. -/
theorem C1_uniform_result_shape {B M : Type} (R : Rules B M)
    (parse : String → Option B) (povMate : Int → Option Int)
    (start : StartResult) (st : Option Nat) (fen : String) (depth : Nat)
    (outcome : AnalysisOutcome M) :
    (∃ s p,
      (evaluate_fen R parse povMate start st fen depth outcome).1 = (s, p)) ∧
    (parse fen = none →
      (evaluate_fen R parse povMate start st fen depth outcome).1 =
        (0, "ERROR:INVALID_FEN")) ∧
    (parse fen ≠ none → getEngine start st = none →
      (evaluate_fen R parse povMate start st fen depth outcome).1 =
        (0, "ERROR:ENGINE_UNAVAILABLE")) ∧
    (parse fen ≠ none → getEngine start st ≠ none →
      outcome = .terminated →
      (evaluate_fen R parse povMate start st fen depth outcome).1 =
        (0, "ERROR:ENGINE_TERMINATED")) ∧
    (parse fen ≠ none → getEngine start st ≠ none → outcome = .failed →
      (evaluate_fen R parse povMate start st fen depth outcome).1 =
        (0, "ERROR:ANALYSIS_FAILED")) ∧
    (parse fen ≠ none → getEngine start st ≠ none →
      outcome = .formatError →
      (evaluate_fen R parse povMate start st fen depth outcome).1 =
        (0, "ERROR:ANALYSIS_FORMAT")) ∧
    (∀ (info : AnalysisInfo M) e, outcome = .ok info →
      scoreOf povMate info = .error e →
      (evaluate_fen R parse povMate start st fen depth outcome).1.1 = 0 ∧
      ∃ r, (evaluate_fen R parse povMate start st fen depth outcome).1.2 =
        "ERROR:" ++ r) := by
  refine ⟨⟨_, _, rfl⟩, ?_, ?_, ?_, ?_, ?_, ?_⟩
  · intro hp
    unfold evaluate_fen
    rw [hp]
  · intro hp he
    rcases hb : parse fen with _ | b
    · exact absurd hb hp
    · unfold evaluate_fen
      rw [hb, he]
  · intro hp he ho
    rcases hb : parse fen with _ | b
    · exact absurd hb hp
    · rcases hee : getEngine start st with _ | pr
      · exact absurd hee he
      · obtain ⟨h, st1⟩ := pr
        subst ho
        unfold evaluate_fen
        rw [hb, hee]
  · intro hp he ho
    rcases hb : parse fen with _ | b
    · exact absurd hb hp
    · rcases hee : getEngine start st with _ | pr
      · exact absurd hee he
      · obtain ⟨h, st1⟩ := pr
        subst ho
        unfold evaluate_fen
        rw [hb, hee]
  · intro hp he ho
    rcases hb : parse fen with _ | b
    · exact absurd hb hp
    · rcases hee : getEngine start st with _ | pr
      · exact absurd hee he
      · obtain ⟨h, st1⟩ := pr
        subst ho
        unfold evaluate_fen
        rw [hb, hee]
  · intro info e ho hse
    subst ho
    obtain ⟨r, hr⟩ := scoreOf_error_tag povMate info e hse
    rcases hb : parse fen with _ | b
    · unfold evaluate_fen
      rw [hb]
      refine ⟨rfl, "INVALID_FEN", ?_⟩
      show ("ERROR:INVALID_FEN" : String) = "ERROR:" ++ "INVALID_FEN"
      decide
    · rcases hee : getEngine start st with _ | pr
      · unfold evaluate_fen
        rw [hb, hee]
        refine ⟨rfl, "ENGINE_UNAVAILABLE", ?_⟩
        show ("ERROR:ENGINE_UNAVAILABLE" : String) =
          "ERROR:" ++ "ENGINE_UNAVAILABLE"
        decide
      · obtain ⟨h, st1⟩ := pr
        have hp0 : processInfo R povMate b info = (0, e) := by
          unfold processInfo
          rw [hse]
        rw [evaluate_fen_ok R parse povMate start st fen depth info b h st1
          hb hee, hp0]
        exact ⟨rfl, r, hr⟩

/-- Witness for C1 at concrete inputs: the invalid-FEN path, the
engine-unavailable path, the terminated path and the no-score path all
yield score 0 with an "ERROR:"-tagged pv. -/
theorem C1_uniform_result_shape_witness :
    (evaluate_fen capRules (fun _ => none) (fun _ => none) .fail none "x" 18
        (.terminated : AnalysisOutcome Nat)).1 = (0, "ERROR:INVALID_FEN") ∧
    (evaluate_fen capRules (fun _ => some 0) (fun _ => none) .fail none "x"
        18 (.terminated : AnalysisOutcome Nat)).1 =
      (0, "ERROR:ENGINE_UNAVAILABLE") ∧
    (evaluate_fen capRules (fun _ => some 0) (fun _ => none) .fail (some 7)
        "x" 18 (.terminated : AnalysisOutcome Nat)).1 =
      (0, "ERROR:ENGINE_TERMINATED") ∧
    ((evaluate_fen capRules (fun _ => some 0) (fun _ => none) .fail (some 7)
        "x" 18 (.ok (⟨none, none, [0]⟩ : AnalysisInfo Nat))).1.1 = 0 ∧
     ∃ r, (evaluate_fen capRules (fun _ => some 0) (fun _ => none) .fail
        (some 7) "x" 18 (.ok (⟨none, none, [0]⟩ : AnalysisInfo Nat))).1.2 =
       "ERROR:" ++ r) := by
  refine ⟨?_, ?_, ?_, ?_⟩
  · exact (C1_uniform_result_shape capRules (fun _ => none) (fun _ => none)
      .fail none "x" 18 .terminated).2.1 rfl
  · exact (C1_uniform_result_shape capRules (fun _ => some 0)
      (fun _ => none) .fail none "x" 18 .terminated).2.2.1
      (by decide) rfl
  · exact (C1_uniform_result_shape capRules (fun _ => some 0)
      (fun _ => none) .fail (some 7) "x" 18 .terminated).2.2.2.1
      (by decide) (by decide) rfl
  · exact (C1_uniform_result_shape capRules (fun _ => some 0)
      (fun _ => none) .fail (some 7) "x" 18
      (.ok ⟨none, none, [0]⟩)).2.2.2.2.2.2 ⟨none, none, [0]⟩
      "ERROR:NO_SCORE_OR_MATE" rfl rfl

/-- C2: for an analysis result whose score is a forced mate, the
normalised score is computed from the White-perspective mate value
n (the raw relative distance if White was to move, its negation
otherwise): 10000 − N when the mate favours the fixed side (n > 0,
N = |n|) and −10000 + N otherwise; in particular mate-in-1 for the fixed
side gives 9999 and mate-in-1 against it gives −9999 (witness). -/
theorem C2_mate_score_normalisation {B M : Type} (R : Rules B M)
    (povMate : Int → Option Int) (b0 : B) (info : AnalysisInfo M)
    (m : Int) (t : Color) (h : info.score = some ⟨.mate m, t⟩) :
    (processInfo R povMate b0 info).1 =
      if 0 < (if t = .white then m else -m)
      then 10000 - |if t = .white then m else -m|
      else -10000 + |if t = .white then m else -m| :=
  processInfo_fst R povMate b0 info _ (scoreOf_mate povMate info m t h)

/-- Witness for C2: mate-in-1 for White yields 9999, mate-in-1 against
White yields −9999. -/
theorem C2_mate_score_normalisation_witness :
    (processInfo capRules (fun _ => none) 0
        (⟨some ⟨.mate 1, .white⟩, none, []⟩ : AnalysisInfo Nat)).1 = 9999 ∧
    (processInfo capRules (fun _ => none) 0
        (⟨some ⟨.mate (-1), .white⟩, none, []⟩ : AnalysisInfo Nat)).1 =
      -9999 := by
  constructor
  · have h := C2_mate_score_normalisation capRules (fun _ => none) 0
      (⟨some ⟨.mate 1, .white⟩, none, []⟩ : AnalysisInfo Nat) 1 .white rfl
    rw [h]
    decide
  · have h := C2_mate_score_normalisation capRules (fun _ => none) 0
      (⟨some ⟨.mate (-1), .white⟩, none, []⟩ : AnalysisInfo Nat) (-1) .white
      rfl
    rw [h]
    decide

/-- C10: the fixed perspective for score_cp is White: whichever side is
to move, a present centipawn score is reported as the engine's value
when White is to move and as its negation when Black is to move (that
is, always from White's point of view), and a mate-derived score is
positive exactly when the White-perspective mate value is positive and
negative exactly when it is negative (for mate distances below the
10000 sentinel). -/
theorem C10_fixed_white_perspective {B M : Type} (R : Rules B M)
    (povMate : Int → Option Int) (b0 : B) (info : AnalysisInfo M)
    (t : Color) :
    (∀ v : Int, info.score = some ⟨.cp v, t⟩ →
      (processInfo R povMate b0 info).1 = (if t = .white then v else -v)) ∧
    (∀ m : Int, info.score = some ⟨.mate m, t⟩ →
      |if t = .white then m else -m| < 10000 →
      ((0 < (if t = .white then m else -m) →
          0 < (processInfo R povMate b0 info).1) ∧
       ((if t = .white then m else -m) < 0 →
          (processInfo R povMate b0 info).1 < 0))) := by
  constructor
  · intro v h
    exact processInfo_fst R povMate b0 info _ (scoreOf_cp povMate info v t h)
  · intro m h habs
    have hs := processInfo_fst R povMate b0 info _
      (scoreOf_mate povMate info m t h)
    rw [hs]
    set n := if t = .white then m else -m with hn
    constructor
    · intro hpos
      rw [if_pos hpos]
      have ha : |n| = n := abs_of_pos hpos
      rw [ha] at habs ⊢
      omega
    · intro hneg
      rw [if_neg (by omega : ¬ 0 < n)]
      have ha : |n| = -n := abs_of_neg hneg
      rw [ha] at habs ⊢
      omega

/-- Witness for C10: with Black to move, a relative centipawn score of
37 is reported as −37 (White's point of view), and a relative mate of
−2 (Black is mated in 2) yields a positive score. -/
theorem C10_fixed_white_perspective_witness :
    (processInfo capRules (fun _ => none) 0
        (⟨some ⟨.cp 37, .black⟩, none, []⟩ : AnalysisInfo Nat)).1 = -37 ∧
    0 < (processInfo capRules (fun _ => none) 0
        (⟨some ⟨.mate (-2), .black⟩, none, []⟩ : AnalysisInfo Nat)).1 := by
  constructor
  · have h := (C10_fixed_white_perspective capRules (fun _ => none) 0
      (⟨some ⟨.cp 37, .black⟩, none, []⟩ : AnalysisInfo Nat) .black).1 37 rfl
    rw [h]
    decide
  · exact ((C10_fixed_white_perspective capRules (fun _ => none) 0
      (⟨some ⟨.mate (-2), .black⟩, none, []⟩ : AnalysisInfo Nat) .black).2
      (-2) rfl (by decide)).1 (by decide)

/-- C7: when the FEN is valid but the engine process cannot start (no
cached handle and popen fails), `evaluate_fen` returns score 0 with the
engine-unavailable tag and leaves the engine state empty; the embedding
is a total function, so the startup failure does not escape as an
exception. -/
theorem C7_engine_unavailable {B M : Type} (R : Rules B M)
    (parse : String → Option B) (povMate : Int → Option Int) (fen : String)
    (depth : Nat) (outcome : AnalysisOutcome M) (b : B)
    (h : parse fen = some b) :
    evaluate_fen R parse povMate .fail none fen depth outcome =
      ((0, "ERROR:ENGINE_UNAVAILABLE"), none) := by
  unfold evaluate_fen
  rw [h]
  rfl

/-- Witness for C7 at a concrete valid-FEN input with a failing engine
start. -/
theorem C7_engine_unavailable_witness :
    evaluate_fen capRules (fun _ => some 0) (fun _ => none) .fail none "x"
      18 (.terminated : AnalysisOutcome Nat) =
      ((0, "ERROR:ENGINE_UNAVAILABLE"), none) :=
  C7_engine_unavailable capRules (fun _ => some 0) (fun _ => none) "x" 18
    .terminated 0 rfl

/-- C8: when the engine terminates mid-call (after a handle was
obtained), `evaluate_fen` returns the engine-terminated pair and clears
the cached handle (the returned state is empty), and a subsequent
acquisition against the empty state starts a fresh process — it returns
and caches whatever handle popen now produces instead of reusing the
dead one.  The call itself performs no retry: it returns the error
unconditionally, whatever a fresh start would have produced. -/
theorem C8_engine_terminated {B M : Type} (R : Rules B M)
    (parse : String → Option B) (povMate : Int → Option Int)
    (start : StartResult) (st : Option Nat) (fen : String) (depth : Nat)
    (b : B) (hp : parse fen = some b) (he : getEngine start st ≠ none) :
    evaluate_fen R parse povMate start st fen depth .terminated =
      ((0, "ERROR:ENGINE_TERMINATED"), none) ∧
    (∀ h2 : Nat, getEngine (.ok h2) none = some (h2, some h2)) := by
  constructor
  · rcases hee : getEngine start st with _ | pr
    · exact absurd hee he
    · obtain ⟨h, st1⟩ := pr
      unfold evaluate_fen
      rw [hp, hee]
  · intro h2
    rfl

/-- Witness for C8 at a concrete input with a cached handle and a
mid-call termination. -/
theorem C8_engine_terminated_witness :
    evaluate_fen capRules (fun _ => some 0) (fun _ => none) .fail (some 7)
      "x" 18 (.terminated : AnalysisOutcome Nat) =
      ((0, "ERROR:ENGINE_TERMINATED"), none) :=
  (C8_engine_terminated capRules (fun _ => some 0) (fun _ => none) .fail
    (some 7) "x" 18 0 rfl (by decide)).1

/-- C9: a cache-read fault is handled exactly like a miss — the
computation runs and the freshly computed value is returned with
cached=false (the request does not fail) — and the outcome of the
attempted cache write never influences the response. -/
theorem C9_cache_fault_degradation (P : Type) (read : CacheReadResult P)
    (w w' : CacheWriteResult) (c : Int × String) :
    eval_fen P true true .fault w c = (.fresh c.1 c.2, true) ∧
    eval_fen P true true .fault w c = eval_fen P true true .miss w c ∧
    eval_fen P true true read w c = eval_fen P true true read w' c := by
  refine ⟨rfl, rfl, ?_⟩
  cases read <;> rfl

/-- C3 counterexample: the claimed independence fails in one direction.
With a raw result that has no score and no mate field but a perfectly
renderable one-move PV, the normaliser returns the error tag instead of
the rendered move list — the missing score does prevent the move list
from being rendered into the pv field. -/
theorem C3_counterexample :
    processInfo capRules (fun _ => none) 0
        (⟨none, none, [0]⟩ : AnalysisInfo Nat) =
      (0, "ERROR:NO_SCORE_OR_MATE") ∧
    renderParts capRules 0 [0] = ["s0"] ∧
    ("ERROR:NO_SCORE_OR_MATE" : String) ≠ "s0" := by
  refine ⟨by decide, by decide, by decide⟩

/-- C3 corrected: the independence only holds in one direction.  A
missing or empty PV does not block score extraction — the computed score
is returned together with the "ERROR:PV_EMPTY" tag; but a
score-extraction failure short-circuits the normaliser: the result is
score 0 with that error tag as the pv, and the move list is not
rendered.  In particular, when neither a score nor a mate distance is
present the result is (0, "ERROR:NO_SCORE_OR_MATE"); both fields are
populated in every case. -/
theorem C3_score_pv_coupling {B M : Type} (R : Rules B M)
    (povMate : Int → Option Int) (b0 : B) (info : AnalysisInfo M) :
    (∀ s : Int, scoreOf povMate info = .ok s → info.pv = [] →
      processInfo R povMate b0 info = (s, "ERROR:PV_EMPTY")) ∧
    (info.score = none → info.mateField = none →
      processInfo R povMate b0 info = (0, "ERROR:NO_SCORE_OR_MATE")) ∧
    (∀ e, scoreOf povMate info = .error e →
      processInfo R povMate b0 info = (0, e) ∧ ∃ r, e = "ERROR:" ++ r) := by
  refine ⟨?_, ?_, ?_⟩
  · intro s hs hpv
    unfold processInfo
    rw [hs, hpv]
    rfl
  · intro h1 h2
    have he : scoreOf povMate info = .error "ERROR:NO_SCORE_OR_MATE" := by
      unfold scoreOf
      rw [h1, h2]
    unfold processInfo
    rw [he]
  · intro e he
    refine ⟨?_, scoreOf_error_tag povMate info e he⟩
    unfold processInfo
    rw [he]

/-- Witness for the corrected C3: an empty PV still carries the real
score 11, and a score failure yields the (0, tag) pair. -/
theorem C3_score_pv_coupling_witness :
    processInfo capRules (fun _ => none) 0
        (⟨some ⟨.cp 11, .white⟩, none, []⟩ : AnalysisInfo Nat) =
      (11, "ERROR:PV_EMPTY") ∧
    processInfo capRules (fun _ => none) 0
        (⟨none, some .nonInt, [0]⟩ : AnalysisInfo Nat) =
      (0, "ERROR:MATE_FIELD_INVALID_TYPE") := by
  constructor
  · exact (C3_score_pv_coupling capRules (fun _ => none) 0
      (⟨some ⟨.cp 11, .white⟩, none, []⟩ : AnalysisInfo Nat)).1 11 rfl rfl
  · exact ((C3_score_pv_coupling capRules (fun _ => none) 0
      (⟨none, some .nonInt, [0]⟩ : AnalysisInfo Nat)).2.2
      "ERROR:MATE_FIELD_INVALID_TYPE" rfl).1

/-- C4 counterexample at the 20-ply rendering cap: a 21-move raw list
whose first 20 moves are clean and legal (third conjunct) and whose 21st
move is illegal on the board they produce (second conjunct) is rendered
as the 20 SANs with NO tagged raw notation appended — the claim's
prediction, 20 SANs followed by "u20 (illegal on replay)", differs
(fourth conjunct), because the list is truncated to 20 plies before the
loop ever examines the offending move. -/
theorem C4_counterexample :
    processInfo capRules (fun _ => none) 0
        (⟨some ⟨.cp 5, .white⟩, none, List.range 21⟩ : AnalysisInfo Nat) =
      (5, "s0 s1 s2 s3 s4 s5 s6 s7 s8 s9 s10 s11 s12 s13 s14 s15 s16 s17 s18 s19") ∧
    capRules.is_legal 20 20 = false ∧
    sanSeq capRules 0 (List.range 20) =
      some (["s0", "s1", "s2", "s3", "s4", "s5", "s6", "s7", "s8", "s9",
        "s10", "s11", "s12", "s13", "s14", "s15", "s16", "s17", "s18",
        "s19"], 20) ∧
    ("s0 s1 s2 s3 s4 s5 s6 s7 s8 s9 s10 s11 s12 s13 s14 s15 s16 s17 s18 s19" : String) ≠
      "s0 s1 s2 s3 s4 s5 s6 s7 s8 s9 s10 s11 s12 s13 s14 s15 s16 s17 s18 s19 u20 (illegal on replay)" := by
  refine ⟨by decide, by decide, by decide, by decide⟩

/-- C4 corrected: restricted to an offending move within the 20-ply
rendering cap.  For every raw move list consisting of a fault-free legal
sequence of fewer than 20 moves, then a move illegal on the board that
sequence reaches, then anything, the normaliser renders exactly the SANs
of the clean part, appends the offending move's raw notation tagged
" (illegal on replay)", and renders nothing further; in particular a
list whose second move is illegal yields exactly one rendered move plus
one tagged raw-notation entry (witness).  An illegal move beyond the
20th ply is never examined. -/
theorem C4_illegal_move_truncation {B M : Type} (R : Rules B M)
    (povMate : Int → Option Int) (b0 : B) (info : AnalysisInfo M)
    (s : Int) (pre : List M) (m : M) (rest : List M) (sans : List String)
    (bk : B) (hs : scoreOf povMate info = .ok s)
    (hpv : info.pv = pre ++ m :: rest) (hlen : pre.length < 20)
    (hclean : sanSeq R b0 pre = some (sans, bk))
    (hil : R.is_legal bk m = false) :
    processInfo R povMate b0 info =
      (s, String.intercalate " "
            (sans ++ [R.uci m ++ " (illegal on replay)"])) := by
  unfold processInfo
  rw [hs]
  have hne : (pre ++ m :: rest).isEmpty = false := by
    cases pre <;> simp
  dsimp only
  rw [hpv]
  rw [if_neg (by simp [hne])]
  rw [take20_split pre m rest hlen,
    renderParts_sanSeq_illegal R pre b0 sans bk m _ hclean hil]
  rw [if_neg (by simp)]

/-- Witness for the corrected C4: a four-move raw list whose second move
is illegal after the first yields exactly one rendered move plus one
tagged raw-notation entry and nothing further. -/
theorem C4_illegal_move_truncation_witness :
    processInfo capRules (fun _ => none) 0
        (⟨some ⟨.cp 5, .white⟩, none, [0, 20, 1, 2]⟩ : AnalysisInfo Nat) =
      (5, "s0 u20 (illegal on replay)") := by
  have h := C4_illegal_move_truncation capRules (fun _ => none) 0
    (⟨some ⟨.cp 5, .white⟩, none, [0, 20, 1, 2]⟩ : AnalysisInfo Nat) 5
    [0] 20 [1, 2] ["s0"] 1 rfl (by decide) (by decide) (by decide)
    (by decide)
  rw [h]
  decide

/-- C5 counterexample: with a two-move PV whose first move faults during
SAN conversion, the normaliser substitutes the raw notation for that
move and then KEEPS rendering the second move — the claim's predicted
truncated pv "u0" differs from the actual "u0 s1". -/
theorem C5_counterexample :
    processInfo faultRules (fun _ => none) 0
        (⟨some ⟨.cp 5, .white⟩, none, [0, 1]⟩ : AnalysisInfo Nat) =
      (5, "u0 s1") ∧
    ("u0 s1" : String) ≠ "u0" := by
  refine ⟨by decide, by decide⟩

/-- C5 corrected: a fault while rendering one move is caught locally and
the move's raw notation is substituted, but the loop then CONTINUES with
the subsequent moves on the unchanged replay board instead of truncating
(the truncating break in the source's exception handler is commented
out); no fault propagates.  When the fault occurs while applying the
move after a successful SAN conversion, both the SAN and the raw
notation are appended before continuing. -/
theorem C5_render_fault_continues {B M : Type} (R : Rules B M) (b : B)
    (m : M) (ms : List M) (hleg : R.is_legal b m = true) :
    (R.san b m = none →
      renderParts R b (m :: ms) = R.uci m :: renderParts R b ms) ∧
    (∀ s, R.san b m = some s → R.push b m = none →
      renderParts R b (m :: ms) = s :: R.uci m :: renderParts R b ms) := by
  constructor
  · intro hsan
    simp [renderParts, hleg, hsan]
  · intro s hsan hpush
    simp [renderParts, hleg, hsan, hpush]

/-- Witness for the corrected C5: the faulting first move is replaced by
its raw notation and the second move is still rendered. -/
theorem C5_render_fault_continues_witness :
    renderParts faultRules 0 [0, 1] = ["u0", "s1"] := by
  have h := (C5_render_fault_continues faultRules 0 0 [1] (by decide)).1
    (by decide)
  rw [h]
  decide

/-- C6: the cache key is a pure deterministic function of (fen, depth):
repeated applications coincide; keys for the same FEN at distinct depths
always differ (the decimal depth sits in the visible prefix); and every
key consists of the namespace tag "sf:", the decimal depth value, a ":"
separator and the 32-character prefix of the hex digest of the
concatenation of the FEN and the depth — given the modelled facts that
sha256 hex digests are 64 lowercase-hex characters long. -/
theorem C6_cache_key_properties (hexdigest : String → String)
    (hlen : ∀ s, (hexdigest s).length = 64)
    (hhex : ∀ s, ∀ c ∈ (hexdigest s).data, isHexDigit c = true) :
    (∀ fen depth,
      cache_key hexdigest fen depth = cache_key hexdigest fen depth) ∧
    (∀ fen d1 d2, d1 ≠ d2 →
      cache_key hexdigest fen d1 ≠ cache_key hexdigest fen d2) ∧
    (∀ fen depth, ∃ dg : String,
      cache_key hexdigest fen depth =
        "sf:" ++ Nat.repr depth ++ ":" ++ dg ∧
      dg.length = 32 ∧ (∀ c ∈ dg.data, isHexDigit c = true) ∧
      dg = strTake (hexdigest (fen ++ "-" ++ Nat.repr depth)) 32) := by
  refine ⟨fun _ _ => rfl, ?_, ?_⟩
  · intro fen d1 d2 hne heq
    apply hne
    have hd := congrArg String.data heq
    simp only [cache_key, string_data_append, List.append_assoc] at hd
    have h1 := List.append_cancel_left hd
    have hlen1 :
        (strTake (hexdigest (fen ++ "-" ++ Nat.repr d1)) 32).data.length =
          32 := by
      show ((hexdigest (fen ++ "-" ++ Nat.repr d1)).data.take 32).length = 32
      rw [List.length_take]
      have hh := hlen (fen ++ "-" ++ Nat.repr d1)
      simp only [String.length] at hh
      omega
    have hlen2 :
        (strTake (hexdigest (fen ++ "-" ++ Nat.repr d2)) 32).data.length =
          32 := by
      show ((hexdigest (fen ++ "-" ++ Nat.repr d2)).data.take 32).length = 32
      rw [List.length_take]
      have hh := hlen (fen ++ "-" ++ Nat.repr d2)
      simp only [String.length] at hh
      omega
    have h2 := (List.append_inj' h1 (by simp [hlen1, hlen2])).1
    exact natRepr_inj (String.ext h2)
  · intro fen depth
    refine ⟨strTake (hexdigest (fen ++ "-" ++ Nat.repr depth)) 32, rfl, ?_,
      ?_, rfl⟩
    · exact strTake_length _ _ (by rw [hlen]; norm_num)
    · intro c hc
      have hc' : c ∈ (hexdigest (fen ++ "-" ++ Nat.repr depth)).data.take 32 :=
        hc
      exact hhex _ c (List.mem_of_mem_take hc')

/-- Witness for C6 at a concrete digest function producing 64 zero
characters: the keys for depths 1 and 2 differ. -/
theorem C6_cache_key_properties_witness :
    cache_key (fun _ => ⟨List.replicate 64 '0'⟩) "x" 1 ≠
      cache_key (fun _ => ⟨List.replicate 64 '0'⟩) "x" 2 := by
  refine (C6_cache_key_properties (fun _ => ⟨List.replicate 64 '0'⟩) ?_
    ?_).2.1 "x" 1 2 (by decide)
  · intro s
    show (⟨List.replicate 64 '0'⟩ : String).length = 64
    decide
  · intro s c hc
    have hc' : c ∈ List.replicate 64 '0' := hc
    have hc0 := List.eq_of_mem_replicate hc'
    subst hc0
    decide

end ExplainThatMove
